import Mathlib

/-!
# Verification of the geni-tools stitching reservation engine
  (src/src/omnilib/stitch/objects.py)

Shallow embedding of the stitching data model and the reservation engine:
`Path.fromDOM` / `Hop.fromDOM` parsing, `Aggregate.copyVLANsAndDetectRedo`,
`Aggregate.allocate`, `Aggregate.doReservation` and
`Aggregate.deleteReservation`.

Modelling conventions:
* VLAN ranges: the `VLANRange` module is imported by `objects.py` but its
  source is not part of this tree; following the specification (§4.1) a
  `VLANRange` is a finite set of ints, "any" is the full range [1,4094],
  `&` is intersection, `-` is difference, `<=` is subset, `len` is
  cardinality.  We embed it as `Finset ℕ`.
* Python truthiness of a VLAN-valued attribute (`if x:`): false for `None`,
  for the empty string `""` (the initial value of the `*_range_*` fields in
  `HopLink.__init__`) and for an empty range.  We embed such attributes as
  `Option VLANRange`, with `none` standing for `None`/`""`, and define
  `pyTruthy` accordingly.  Every equality comparison in the engine compares
  such an attribute against a genuine `VLANRange` value, so identifying
  `None` with `""` never changes a comparison result.
* Object graphs: Python mutates `Aggregate` objects shared through a
  process-wide registry keyed by URN.  We model the registry as a `World`
  (a list of aggregates) and mutation as functional update keyed by `urn`.
  `dependsOn` / `isDependencyFor` hold URNs rather than object pointers.
* `hop.import_vlans_from` is a pointer to a hop of an upstream (already
  completed) aggregate; `copyVLANsAndDetectRedo` only ever reads its
  `_hop_link.vlan_suggested_manifest` / `vlan_range_manifest` fields, so we
  embed the pointer as a snapshot of that upstream `HopLink`.
* Manifest documents: `getVLANRangeSuggested` walks the manifest DOM down to
  the `hop` with a given id and extracts the `vlanRangeAvailability` and
  `suggestedVLANRange` texts (raising `StitchingError` when a level is
  missing).  We embed a parsed manifest as an association list from hop id
  to the pair of extracted values; a missing entry stands for any of the
  missing-level errors.  Text values are embedded already parsed: `none`
  for a missing/empty text, and for the suggested value a marker for the
  literal strings 'null'/'None'/'any' which `allocate` rejects.
-/

/-- VLAN ranges (spec §4.1): a finite set of VLAN ids.
Modelled from the spec: the `VLANRange` module itself is not in the tree. -/
abbrev VLANRange := Finset ℕ

namespace VLANRange

/-- `VLANRange.fromString("any")`: the full range [1, 4094]. -/
def anyRange : VLANRange := Finset.Icc 1 4094

/-- Modelled from the spec: VLANRange `contains` / the Python `in` operator
applied to another range, as used at objects.py:655
(`vlan_suggested_manifest not in new_avail`): the contained range is a
sub-range of the container. -/
def containsRange (s other : VLANRange) : Bool := decide (other ⊆ s)

end VLANRange

/-- Python truthiness of a VLAN-valued attribute: `None`, `""` (both mapped
to `none`) and the empty range are falsy. -/
def pyTruthy (o : Option VLANRange) : Bool :=
  match o with
  | none => false
  | some r => decide (r ≠ ∅)

/-- The link element of a hop (objects.py `HopLink.__init__`).
`urn` is the link id; the four VLAN fields start out falsy
(`""`/`None`, embedded as `none`). -/
structure HopLink where
  urn : String
  vlan_xlate : Bool := false
  vlan_range_request : Option VLANRange := none
  vlan_suggested_request : Option VLANRange := none
  vlan_range_manifest : Option VLANRange := none
  vlan_suggested_manifest : Option VLANRange := none
  deriving DecidableEq

/-- Resolution state of a hop's `_next_hop` field: `null` for Python `None`,
`raw s` for a still-unresolved string, `hop j` for a resolved reference to
the hop at index `j` of the same path. -/
inductive NextRef where
  | null : NextRef
  | raw (s : String) : NextRef
  | hop (j : Nat) : NextRef
  deriving DecidableEq

/-- A hop on a stitching path (objects.py `Hop.__init__`), with defaults as
set by the constructor.  `idx` is `None` until `Path.fromDOM` assigns it; we
use `0` as the unassigned value (no claim reads it before assignment).
`import_vlans_from` is the upstream hop's `_hop_link` snapshot (see header
notes). -/
structure Hop where
  id : String
  hop_link : HopLink
  nextRef : NextRef := NextRef.null
  idx : Nat := 0
  loose : Bool := false
  excludeFromSCS : Bool := false
  import_vlans : Bool := false
  import_vlans_from : Option HopLink := none
  vlans_unavailable : VLANRange := ∅
  deriving DecidableEq

/-- The suggested-VLAN text extracted from a manifest for one hop:
`missing` for an absent element or falsy text, `special` for the literal
strings 'null'/'None'/'any' (rejected by `allocate`), `vlanVal r` for any
other text, embedded parsed. -/
inductive SuggVal where
  | missing : SuggVal
  | special : SuggVal
  | vlanVal (r : VLANRange) : SuggVal
  deriving DecidableEq

/-- What `getVLANRangeSuggested` extracts for one hop of a manifest:
the `vlanRangeAvailability` text (`none` = absent/falsy) and the
`suggestedVLANRange` text. -/
structure HopManifest where
  rangeValue : Option VLANRange
  suggestedValue : SuggVal
  deriving DecidableEq

/-- A parsed manifest document, abstracted to the association of hop id to
the values `getVLANRangeSuggested` extracts for that hop (see header notes). -/
abbrev ManifestDoc := List (String × HopManifest)

/-- An aggregate manager (objects.py `Aggregate.__init__`), with the
constructor's defaults.  `dependsOn` / `isDependencyFor` hold the URNs of
the referenced aggregates; `requestDom` is abstracted to a presence token. -/
structure Agg where
  urn : String
  url : String := ""
  inProcess : Bool := false
  completed : Bool := false
  userRequested : Bool := false
  hops : List Hop := []
  dependsOn : List String := []
  isDependencyFor : List String := []
  requestDom : Option Unit := none
  manifestDom : Option ManifestDoc := none
  api_version : Nat := 2
  dcn : Bool := false
  deriving DecidableEq

/-- The process-wide `Aggregate.aggs` registry, as the list of all live
aggregates. -/
abbrev World := List Agg

/-- Look up the canonical aggregate for a URN (`Aggregate.find` on an
already-populated registry).  The default is unreachable whenever the caller
holds a reference to a registered aggregate, which is the only way the
engine reaches these methods. -/
def findAgg (w : World) (urn : String) : Agg :=
  (w.find? (fun a => a.urn == urn)).getD { urn := urn }

/-- Replace (all) aggregates with the given one's URN — functional update
standing for Python in-place mutation of the shared object. -/
def updateAgg (w : World) (a : Agg) : World :=
  w.map (fun x => if x.urn == a.urn then a else x)

/-- `Aggregate.dependencies_complete` (objects.py:216-223):
no dependencies, or every dependency completed. -/
def dependenciesComplete (w : World) (a : Agg) : Bool :=
  a.dependsOn.all (fun u => (findAgg w u).completed)

/-- Errors raised by the engine (`StitchingError` instances), tagged with
the entity each message reports, plus the two latent unbound-name faults in
the source (see `allocate`). -/
inductive StitchErr where
  | suggestedUnavailable (hopId : String) : StitchErr
  | emptyAvail (hopId : String) : StitchErr
  | suggestedNotInAvail (hopId : String) : StitchErr
  | hopManifestNoAMManifest (hopId : String) : StitchErr
  | amManifestNoHopManifest (hopId : String) : StitchErr
  | hopNotInManifest (hopId : String) : StitchErr
  | noSuggestedInManifest (hopId : String) : StitchErr
  | invalidSuggestedInManifest (hopId : String) : StitchErr
  | noRangeInManifest (hopId : String) : StitchErr
  | reserveException (url : String) : StitchErr
  | deleteFailed (url : String) : StitchErr
  | deleteOmniError (url : String) : StitchErr
  | nameErrorText : StitchErr
  | attributeErrorManifestDom : StitchErr
  deriving DecidableEq

/-- The hop a `StitchingError` message reports, when it reports one. -/
def StitchErr.mentionsHop : StitchErr → Option String
  | .suggestedUnavailable h => some h
  | .emptyAvail h => some h
  | .suggestedNotInAvail h => some h
  | .hopManifestNoAMManifest h => some h
  | .amManifestNoHopManifest h => some h
  | .hopNotInManifest h => some h
  | .noSuggestedInManifest h => some h
  | .invalidSuggestedInManifest h => some h
  | .noRangeInManifest h => some h
  | .reserveException _ => none
  | .deleteFailed _ => none
  | .deleteOmniError _ => none
  | .nameErrorText => none
  | .attributeErrorManifestDom => none

/-! ## VLAN negotiation (objects.py:556-680, `copyVLANsAndDetectRedo`) -/

/-- objects.py:575-580: `new_suggested` starts as the hop's
`vlan_suggested_request` — or "any" if that is falsy — and is replaced by
(a copy of) the upstream hop's `vlan_suggested_manifest` when that is
truthy. -/
def newSuggested (h : Hop) (up : HopLink) : VLANRange :=
  let base :=
    if pyTruthy h.hop_link.vlan_suggested_request then
      h.hop_link.vlan_suggested_request.getD ∅
    else VLANRange.anyRange
  if pyTruthy up.vlan_suggested_manifest then
    up.vlan_suggested_manifest.getD ∅
  else base

/-- objects.py:590-609: `int1` is the upstream `vlan_range_manifest` (or
"any" if falsy), `int2` is the hop's `vlan_range_request` (or "any" if
falsy); `new_avail` is their intersection minus the hop's known-unavailable
VLANs. -/
def newAvail (h : Hop) (up : HopLink) : VLANRange :=
  let int1 :=
    if pyTruthy up.vlan_range_manifest then up.vlan_range_manifest.getD ∅
    else VLANRange.anyRange
  let int2 :=
    if pyTruthy h.hop_link.vlan_range_request then
      h.hop_link.vlan_range_request.getD ∅
    else VLANRange.anyRange
  (int1 ∩ int2) \ h.vlans_unavailable

/-- objects.py:575-618: compute `new_suggested` and `new_avail` for an
importing hop and run the three feasibility checks, each raising a
`StitchingError` naming the hop:
`new_suggested <= hop.vlans_unavailable` (line 586), empty `new_avail`
(line 610), `not new_suggested <= new_avail` (line 614). -/
def negotiateVLANs (h : Hop) (up : HopLink) :
    Except StitchErr (VLANRange × VLANRange) :=
  let ns := newSuggested h up
  if ns ⊆ h.vlans_unavailable then
    Except.error (StitchErr.suggestedUnavailable h.id)
  else
    let na := newAvail h up
    if na = ∅ then Except.error (StitchErr.emptyAvail h.id)
    else if ¬ ns ⊆ na then
      Except.error (StitchErr.suggestedNotInAvail h.id)
    else Except.ok (ns, na)

/-- `negotiateVLANs` raised. -/
def negotiationFailed (r : Except StitchErr (VLANRange × VLANRange)) : Bool :=
  match r with
  | Except.error _ => true
  | Except.ok _ => false

/-- Result of processing one hop inside `copyVLANsAndDetectRedo`: the
(possibly mutated) hop, the updated `mustDelete` / `alreadyDone` flags, and
the raised error if any (mutations made before the raise persist, as they
do on the Python objects). -/
structure HopStep where
  hop : Hop
  mustDelete : Bool
  alreadyDone : Bool
  err : Option StitchErr
  deriving DecidableEq

/-- objects.py:621-646: the suggested-VLAN redo check for one importing hop
(`ns` is the computed `new_suggested`). -/
def suggestedRedoPhase (hadPreviousManifest : Bool) (mustDelete alreadyDone : Bool)
    (h : Hop) (ns : VLANRange) : HopStep :=
  if pyTruthy h.hop_link.vlan_suggested_manifest then
    if ¬ hadPreviousManifest then
      { hop := h, mustDelete, alreadyDone,
        err := some (StitchErr.hopManifestNoAMManifest h.id) }
    else if h.hop_link.vlan_suggested_request ≠ some ns then
      let h' := { h with hop_link := { h.hop_link with vlan_suggested_request := some ns } }
      if h.hop_link.vlan_suggested_manifest = some ns then
        -- "But hop VLAN suggested manifest is the new request, so leave it alone"
        { hop := h', mustDelete, alreadyDone, err := none }
      else
        { hop := h', mustDelete := true, alreadyDone := false, err := none }
    else
      { hop := h, mustDelete, alreadyDone, err := none }
  else
    -- line 638: alreadyDone = False; no previous result for this hop
    if hadPreviousManifest then
      { hop := h, mustDelete, alreadyDone := false,
        err := some (StitchErr.amManifestNoHopManifest h.id) }
    else if h.hop_link.vlan_suggested_request ≠ some ns then
      { hop := { h with hop_link := { h.hop_link with vlan_suggested_request := some ns } },
        mustDelete, alreadyDone := false, err := none }
    else
      { hop := h, mustDelete, alreadyDone := false, err := none }

/-- objects.py:649-678: the avail-range redo check for one importing hop
(`na` is the computed `new_avail`).  Note line 651 only logs (no raise) and
line 670's `alreadydone = False` binds a fresh local in the source, so has
no effect on the returned flag. -/
def rangeRedoPhase (hadPreviousManifest : Bool) (mustDelete alreadyDone : Bool)
    (h : Hop) (na : VLANRange) : HopStep :=
  if pyTruthy h.hop_link.vlan_range_manifest then
    if h.hop_link.vlan_range_request ≠ some na then
      if pyTruthy h.hop_link.vlan_suggested_manifest &&
          ¬ VLANRange.containsRange na (h.hop_link.vlan_suggested_manifest.getD ∅) then
        { hop := { h with hop_link := { h.hop_link with vlan_range_request := some na } },
          mustDelete := true, alreadyDone := false, err := none }
      else
        { hop := { h with hop_link := { h.hop_link with vlan_range_request := some na } },
          mustDelete, alreadyDone, err := none }
    else
      { hop := h, mustDelete, alreadyDone, err := none }
  else
    if hadPreviousManifest then
      { hop := h, mustDelete, alreadyDone,
        err := some (StitchErr.amManifestNoHopManifest h.id) }
    else if h.hop_link.vlan_range_request ≠ some na then
      { hop := { h with hop_link := { h.hop_link with vlan_range_request := some na } },
        mustDelete, alreadyDone, err := none }
    else
      { hop := h, mustDelete, alreadyDone, err := none }

/-- One iteration of the `for hop in self.hops` loop of
`copyVLANsAndDetectRedo` (objects.py:564-679). -/
def processHop (hadPreviousManifest : Bool) (mustDelete alreadyDone : Bool)
    (h : Hop) : HopStep :=
  if ¬ h.import_vlans then
    -- lines 565-568: a non-importing hop only clears alreadyDone when it
    -- has no suggested manifest
    { hop := h, mustDelete,
      alreadyDone := alreadyDone && pyTruthy h.hop_link.vlan_suggested_manifest,
      err := none }
  else
    match h.import_vlans_from with
    | none =>
      -- lines 571-573: warn and continue
      { hop := h, mustDelete, alreadyDone, err := none }
    | some up =>
      match negotiateVLANs h up with
      | Except.error e => { hop := h, mustDelete, alreadyDone, err := some e }
      | Except.ok (ns, na) =>
        let s1 := suggestedRedoPhase hadPreviousManifest mustDelete alreadyDone h ns
        match s1.err with
        | some e => { hop := s1.hop, mustDelete := s1.mustDelete,
                      alreadyDone := s1.alreadyDone, err := some e }
        | none => rangeRedoPhase hadPreviousManifest s1.mustDelete s1.alreadyDone s1.hop na

/-- The hop loop of `copyVLANsAndDetectRedo`: threads the flags through the
hops; on a raise, keeps the mutations already made and leaves the remaining
hops untouched. -/
def copyVLANsLoop (hadPreviousManifest : Bool) :
    Bool → Bool → List Hop → List Hop × Bool × Bool × Option StitchErr
  | md, ad, [] => ([], md, ad, none)
  | md, ad, h :: rest =>
    let s := processHop hadPreviousManifest md ad h
    match s.err with
    | some e => (s.hop :: rest, s.mustDelete, s.alreadyDone, some e)
    | none =>
      let (rest', md', ad', e') := copyVLANsLoop hadPreviousManifest s.mustDelete s.alreadyDone rest
      (s.hop :: rest', md', ad', e')

/-- `Aggregate.copyVLANsAndDetectRedo` (objects.py:556-680): returns the
mutated hops, `mustDelete`, `alreadyDone` and the raised error if any.
`hadPreviousManifest = (self.manifestDom != None)`; `mustDelete` starts
false and `alreadyDone` starts as `hadPreviousManifest`. -/
def copyVLANsAndDetectRedo (a : Agg) :
    List Hop × Bool × Bool × Option StitchErr :=
  copyVLANsLoop a.manifestDom.isSome false a.manifestDom.isSome a.hops

/-! ## RPC operation names and calls (objects.py:457-463, 705-708) -/

/-- The operation computed at objects.py:461-463 for a reservation:
`createsliver`, or `allocate` when `api_version > 2`. -/
def reserveOpName (apiVersion : Nat) : String :=
  if apiVersion > 2 then "allocate" else "createsliver"

/-- The operation computed at objects.py:705-707 for a delete:
`deletesliver`, or `delete` when `api_version > 2`. -/
def deleteOpName (apiVersion : Nat) : String :=
  if apiVersion > 2 then "delete" else "deletesliver"

/-- The omni argument vector built at objects.py:491 for the reservation
call. -/
def reserveOmniArgs (a : Agg) (slicename rspecfileName : String) : List String :=
  ["-o", "--raiseErrorOnV2AMAPIError", "-a", a.url,
   reserveOpName a.api_version, slicename, rspecfileName]

/-- The omni argument vector built at objects.py:708 for the delete call.
Note the source appends the literal `'sliver'` to the already complete
`opName`. -/
def deleteOmniArgs (a : Agg) (slicename : String) : List String :=
  ["-a", a.url, deleteOpName a.api_version ++ "sliver", slicename]

/-- An RPC issued through omni, as (url, operation name actually passed). -/
inductive RpcCall where
  | reserve (url op : String) : RpcCall
  | delete (url op : String) : RpcCall
  deriving DecidableEq

/-- Outcome of the `omni.call` inside `deleteReservation`
(objects.py:712-719): the returned `(text, (successList, fail))`, or an
`OmniError`. -/
inductive DelOutcome where
  | ok (text : String) (successList : List String) : DelOutcome
  | omniError : DelOutcome
  deriving DecidableEq

/-- Environment of one `deleteReservation` call: `opts.fakeModeDir` and the
delete RPC's outcome. -/
structure DelInput where
  fakeMode : Bool
  outcome : DelOutcome
  deriving DecidableEq

/-- objects.py:689-690: clear a hop's manifest fields. -/
def clearHopManifests (h : Hop) : Hop :=
  { h with hop_link := { h.hop_link with
      vlan_suggested_manifest := none, vlan_range_manifest := none } }

/-- objects.py:684-690: the local clearing `deleteReservation` performs on
its own aggregate before anything else. -/
def clearAggState (a : Agg) : Agg :=
  { a with
    completed := false
    manifestDom := none
    hops := a.hops.map clearHopManifests }

/-- objects.py:684-690 applied through the registry: clear the aggregate
with the given URN, leave every other aggregate alone. -/
def clearIfTarget (urn : String) (a : Agg) : Agg :=
  if a.urn == urn then clearAggState a else a

/-- objects.py:697-698 applied through the registry: mark an aggregate
incomplete when its URN is among the deleting aggregate's
`isDependencyFor`. -/
def markIncompleteIfDependent (deps : List String) (a : Agg) : Agg :=
  if deps.contains a.urn then { a with completed := false } else a

/-- The local-state half of `deleteReservation` (objects.py:684-698):
clear the aggregate's own completed flag, manifestDom and hop manifests,
then mark every aggregate in its `isDependencyFor` incomplete. -/
def deleteReservationWorld (w : World) (urn : String) : World :=
  let w1 := w.map (clearIfTarget urn)
  w1.map (markIncompleteIfDependent (findAgg w1 urn).isDependencyFor)

/-- The RPC half of `deleteReservation` (objects.py:705-719): skipped in
fake mode; otherwise the omni delete call, raising `StitchingError` when
omni raises `OmniError` or when our url is missing from the success list. -/
def deleteRPC (tgt : Agg) (inp : DelInput) : List RpcCall × Option StitchErr :=
  if inp.fakeMode then ([], none)
  else
    let call := RpcCall.delete tgt.url (deleteOpName tgt.api_version ++ "sliver")
    match inp.outcome with
    | DelOutcome.omniError => ([call], some (StitchErr.deleteOmniError tgt.url))
    | DelOutcome.ok _ successList =>
      if successList.contains tgt.url then ([call], none)
      else ([call], some (StitchErr.deleteFailed tgt.url))

/-- `Aggregate.deleteReservation` (objects.py:682-723): clear own state,
mark every aggregate in `self.isDependencyFor` incomplete, then (unless in
fake mode) issue the delete RPC, raising `StitchingError` when omni raises
or when our url is not in the success list.  Returns the new world, the
RPCs issued and the raised error if any (the local mutations are never
rolled back).  The RPC half receives the aggregate as it is after the
local clearing, matching the source's reads of `self.url` /
`self.api_version` (which the clearing does not touch). -/
def deleteReservation (w : World) (urn : String) (inp : DelInput) :
    World × List RpcCall × Option StitchErr :=
  (deleteReservationWorld w urn, deleteRPC (findAgg (w.map (clearIfTarget urn)) urn) inp)

/-! ## doReservation and allocate (objects.py:229-349, 457-554) -/

/-- The `result` value `doReservation` hands back to `allocate`:
a parseable manifest document, a truthy string that fails XML parsing, a
truthy error struct (from `AMAPIError.returnStruct`), or a falsy result. -/
inductive ResultVal where
  | doc (m : ManifestDoc) : ResultVal
  | unparseable : ResultVal
  | errStruct : ResultVal
  | nothing : ResultVal
  deriving DecidableEq

/-- Python truthiness of `result` in `if success and result:`
(objects.py:274). -/
def resultTruthy : ResultVal → Bool
  | ResultVal.nothing => false
  | _ => true

/-- Outcome of the external side of one `doReservation` call:
`ok m` — omni succeeded and returned a parseable manifest;
`okUnparseable` — omni succeeded but the result fails `parseString`;
`okEmpty` — omni succeeded with a falsy result;
`amapiError` — `AMAPIError` caught, `result = e.returnStruct`,
`success` stays False (objects.py:545-549);
`exn` — any other exception: `doReservation` raises `StitchingError`
(objects.py:550-553);
`fakeFallback` — fake mode with no readable results file: the hops'
manifests are copied from their requests and the result is falsy
(objects.py:530-536). -/
inductive RpcOutcome where
  | ok (m : ManifestDoc) : RpcOutcome
  | okUnparseable : RpcOutcome
  | okEmpty : RpcOutcome
  | amapiError : RpcOutcome
  | exn : RpcOutcome
  | fakeFallback : RpcOutcome
  deriving DecidableEq

/-- Environment of one `allocate` call: `opts.fakeModeDir`, the
reservation RPC's outcome and the delete RPC's outcome (used on the
`mustDelete` path; same `opts.fakeModeDir`). -/
structure AllocInput where
  fakeMode : Bool
  outcome : RpcOutcome
  delOutcome : DelOutcome
  deriving DecidableEq

/-- `Aggregate.doReservation` (objects.py:457-554): issue the reserve RPC
(no omni call in fake mode) and classify the outcome.  Returns the possibly
mutated aggregate (fake fallback writes the hops' manifests), the RPCs
issued, and `some (success, result)` — or `none` when the call raised
`StitchingError`. -/
def doReservation (a : Agg) (inp : AllocInput) :
    Agg × List RpcCall × Option (Bool × ResultVal) :=
  let calls := if inp.fakeMode then []
    else [RpcCall.reserve a.url (reserveOpName a.api_version)]
  match inp.outcome with
  | RpcOutcome.fakeFallback =>
    ({ a with hops := a.hops.map (fun h =>
        { h with hop_link := { h.hop_link with
            vlan_suggested_manifest := h.hop_link.vlan_suggested_request,
            vlan_range_manifest := h.hop_link.vlan_range_request } }) },
     calls, some (true, ResultVal.nothing))
  | RpcOutcome.ok m => (a, calls, some (true, ResultVal.doc m))
  | RpcOutcome.okUnparseable => (a, calls, some (true, ResultVal.unparseable))
  | RpcOutcome.okEmpty => (a, calls, some (true, ResultVal.nothing))
  | RpcOutcome.amapiError => (a, calls, some (false, ResultVal.errStruct))
  | RpcOutcome.exn => (a, calls, none)

/-- objects.py:304-329: extract and validate one hop's VLANs from the
manifest, then store them on the hop's link.  A missing suggested value or
one of the literals 'null'/'None'/'any' raises; a missing range value
raises; a suggested value outside `vlan_suggested_request` is only logged
(line 324-327, `FIXME: Handle error here`) and the values are stored
regardless. -/
def processManifestHop (m : ManifestDoc) (h : Hop) : Hop × Option StitchErr :=
  match m.lookup h.id with
  | none => (h, some (StitchErr.hopNotInManifest h.id))
  | some entry =>
    match entry.suggestedValue with
    | SuggVal.missing => (h, some (StitchErr.noSuggestedInManifest h.id))
    | SuggVal.special => (h, some (StitchErr.invalidSuggestedInManifest h.id))
    | SuggVal.vlanVal s =>
      match entry.rangeValue with
      | none => (h, some (StitchErr.noRangeInManifest h.id))
      | some r =>
        ({ h with hop_link := { h.hop_link with
            vlan_suggested_manifest := some s, vlan_range_manifest := some r } },
         none)

/-- The `for hop in self.hops` manifest loop of `allocate`
(objects.py:304-329); on a raise the hops already processed keep their new
manifests. -/
def manifestLoop (m : ManifestDoc) : List Hop → List Hop × Option StitchErr
  | [] => ([], none)
  | h :: rest =>
    let (h', e) := processManifestHop m h
    match e with
    | some err => (h' :: rest, some err)
    | none =>
      let (rest', e') := manifestLoop m rest
      (h' :: rest', e')

/-- Result of one `allocate` call: the new world, the RPCs issued and the
raised error if any. -/
structure AllocResult where
  world : World
  calls : List RpcCall
  err : Option StitchErr
  deriving DecidableEq

/-- objects.py:293-349 (success side): store the parsed manifest on the
aggregate (`a3` already carries it), run the per-hop extraction loop, and
on success mark the aggregate not busy and complete.  When `manifestDom` is
`None` (the result did not parse and there was no previous manifest),
`getVLANRangeSuggested(None, ...)` faults in the source. -/
def manifestPhase (w : World) (calls : List RpcCall) (a3 : Agg) : AllocResult :=
  match a3.manifestDom with
  | none =>
    { world := updateAgg w a3, calls,
      err := some StitchErr.attributeErrorManifestDom }
  | some m =>
    match manifestLoop m a3.hops with
    | (hops2, some e) =>
      { world := updateAgg w { a3 with hops := hops2 }, calls, err := some e }
    | (hops2, none) =>
      { world := updateAgg w
          { a3 with hops := hops2, inProcess := false, completed := true },
        calls, err := none }

/-- objects.py:274-349: dispatch on `doReservation`'s result.  A raise in
`doReservation` propagates; on `success and result` the manifest is parsed
(`parseString`; an unparseable result leaves the previous `manifestDom`)
and processed; otherwise the logging call at objects.py:337 reads the
unbound name `text`, so the source raises `NameError` there — leaving
`inProcess` True and `completed` False. -/
def allocateFinish (w : World) (calls : List RpcCall) (a2 : Agg)
    (res : Option (Bool × ResultVal)) : AllocResult :=
  match res with
  | none =>
    { world := updateAgg w a2, calls,
      err := some (StitchErr.reserveException a2.url) }
  | some (success, result) =>
    if success && resultTruthy result then
      manifestPhase w calls
        (match result with
          | ResultVal.doc m => { a2 with manifestDom := some m }
          | _ => a2)
    else
      { world := updateAgg w a2, calls, err := some StitchErr.nameErrorText }

/-- The tail of `allocate` from objects.py:260 on: mark busy, build the
request document (`getEditedRSpecDom`, abstracted to a presence token on
a well-formed rspec), call `doReservation` and process the result. -/
def allocateReserve (w : World) (a : Agg) (inp : AllocInput)
    (calls0 : List RpcCall) : AllocResult :=
  let a1 := { a with completed := false, inProcess := true, requestDom := some () }
  let p := doReservation a1 inp
  allocateFinish w (calls0 ++ p.2.1) p.1 p.2.2

/-- `Aggregate.allocate` (objects.py:229-349).  Guards (no-op when already
in process, when dependencies are not all complete, or when already
completed), then `copyVLANsAndDetectRedo`, the `mustDelete` /
`alreadyDone` handling, and the reservation itself. -/
def allocate (w : World) (urn : String) (inp : AllocInput) : AllocResult :=
  match w.find? (fun a => a.urn == urn) with
  | none => { world := w, calls := [], err := none }
  | some a =>
    if a.inProcess then { world := w, calls := [], err := none }
    else if ¬ dependenciesComplete w a then { world := w, calls := [], err := none }
    else if a.completed then { world := w, calls := [], err := none }
    else
      let (hops', mustDelete, alreadyDone0, cerr) := copyVLANsAndDetectRedo a
      let a1 := { a with hops := hops' }
      let w1 := updateAgg w a1
      match cerr with
      | some e => { world := w1, calls := [], err := some e }
      | none =>
        let step : World × List RpcCall × Option StitchErr × Bool :=
          if mustDelete then
            let (w2, dcalls, derr) :=
              deleteReservation w1 urn { fakeMode := inp.fakeMode, outcome := inp.delOutcome }
            (w2, dcalls, derr, false)
          else (w1, [], none, alreadyDone0)
        match step with
        | (w2, dcalls, some e, _) => { world := w2, calls := dcalls, err := some e }
        | (w2, dcalls, none, alreadyDone) =>
          let a2 := findAgg w2 urn
          if alreadyDone then
            { world := updateAgg w2 { a2 with completed := true },
              calls := dcalls, err := none }
          else
            allocateReserve w2 a2 inp dcalls

/-! ## Parsing: `Hop.fromDOM`, `HopLink.fromDOM`, `Path.fromDOM`
  (objects.py:53-69, 735-757, 984-1022)

The DOM is embedded down to the attributes and texts these parsers read.
VLAN texts are embedded already parsed (no claim concerns the
`VLANRange.fromString` parser itself); `some none` stands for an element
present without text.  The `vlanTranslation` element is taken as present
(when it is absent the source leaves `vlan_translate` unbound and faults at
objects.py:1019), and every `hop` is taken to carry its `link` child (when
it is absent the source leaves `hop_link = None`); the stitching schema
requires both, and every claim input satisfies this. -/

/-- Substring test on character lists. -/
def charsInfix (needle : List Char) : List Char → Bool
  | [] => needle.isEmpty
  | c :: t => needle.isPrefixOf (c :: t) || charsInfix needle t

/-- Python's `in` on strings: substring test (used at objects.py:997,
`x.lower() in ('true')` — note `('true')` is the plain string). -/
def pyInStr (needle haystack : String) : Bool :=
  charsInfix needle.data haystack.data

/-- The parts of a `<link>` element read by `HopLink.fromDOM`. -/
structure LinkDom where
  id : String
  vlanTranslationText : Option String
  vlanRangeElem : Option (Option VLANRange)
  vlanSuggestedElem : Option (Option VLANRange)
  deriving DecidableEq

/-- The parts of a `<hop>` element read by `Hop.fromDOM`:  the `id` and
`type` attributes, the `<link>` child and the `<nextHop>` child's text
(`none` = no `<nextHop>` child). -/
structure HopDom where
  id : String
  hopType : Option String
  link : LinkDom
  nextHopText : Option String
  deriving DecidableEq

/-- `HopLink.fromDOM` (objects.py:984-1022): the link id becomes the urn;
`vlanTranslation` text (default 'False' when empty) is lowercased and
substring-tested against 'true'; a missing `vlanRangeAvailability` /
`suggestedVLANRange` element yields an empty `VLANRange()`, an empty text
yields "any". -/
def hopLinkFromDOM (d : LinkDom) : HopLink :=
  let x := d.vlanTranslationText.getD "False"
  let vlan_range_obj : Option VLANRange :=
    match d.vlanRangeElem with
    | none => some ∅
    | some none => some VLANRange.anyRange
    | some (some r) => some r
  let vlan_suggested_obj : Option VLANRange :=
    match d.vlanSuggestedElem with
    | none => some ∅
    | some none => some VLANRange.anyRange
    | some (some r) => some r
  { urn := d.id
    vlan_xlate := pyInStr x.toLower "true"
    vlan_range_request := vlan_range_obj
    vlan_suggested_request := vlan_suggested_obj }

/-- The initial `_next_hop` value parsed by `Hop.fromDOM`
(objects.py:750-753): the `<nextHop>` text, with the literal 'null' (and a
missing child) giving Python `None`. -/
def parseNextRef (t : Option String) : NextRef :=
  match t with
  | none => NextRef.null
  | some s => if s = "null" then NextRef.null else NextRef.raw s

/-- `Hop.fromDOM` (objects.py:735-757): id and loose from the attributes,
the link child parsed, `_next_hop` still a raw string; all other fields at
their constructor defaults. -/
def hopFromDOM (d : HopDom) : Hop :=
  let isLoose :=
    match d.hopType with
    | some t => t.toLower.trim == "loose"
    | none => false
  { id := d.id
    hop_link := hopLinkFromDOM d.link
    nextRef := parseNextRef d.nextHopText
    loose := isLoose }

/-- The `hop.idx = len(path.hops)` assignment as hops are appended in
`Path.fromDOM` (objects.py:59-64). -/
def assignIdx : Nat → List Hop → List Hop
  | _, [] => []
  | i, h :: t => { h with idx := i } :: assignIdx (i + 1) t

/-- `Path.find_hop` (objects.py:90-95), returning the index of the first
hop whose urn equals the given value (Python compares `hop.urn`, which is
`None` when there is no hop link, against the raw `_next_hop` value, which
is `None` or a string; here every hop has a link, so the urn side is always
a string). -/
def find_hop_aux (hops : List Hop) (key : Option String) (i : Nat) : Option Nat :=
  match hops with
  | [] => none
  | h :: t => if some h.hop_link.urn = key then some i else find_hop_aux t key (i + 1)

/-- The resolution pass of `Path.fromDOM` (objects.py:65-68) for one hop:
look the raw `_next_hop` value up among the path's hops; replace it by the
found hop, or keep the raw value when nothing matches. -/
def resolveNext (hops : List Hop) (h : Hop) : Hop :=
  let key : Option String :=
    match h.nextRef with
    | NextRef.null => none
    | NextRef.raw s => some s
    | NextRef.hop _ => none
  match find_hop_aux hops key 0 with
  | some j => { h with nextRef := NextRef.hop j }
  | none => h

/-- `Path.fromDOM` (objects.py:53-69) restricted to its hops: parse each
`<hop>` child in order, assigning `idx` by position, then resolve every
`_next_hop` reference. -/
def pathFromDOM (doms : List HopDom) : List Hop :=
  let hops := assignIdx 0 (doms.map hopFromDOM)
  hops.map (resolveNext hops)

/-! ## Registry lemmas -/

theorem clearAggState_urn (a : Agg) : (clearAggState a).urn = a.urn := rfl

theorem clearIfTarget_urn (urn : String) (a : Agg) :
    (clearIfTarget urn a).urn = a.urn := by
  unfold clearIfTarget
  split <;> rfl

theorem markIncompleteIfDependent_urn (deps : List String) (a : Agg) :
    (markIncompleteIfDependent deps a).urn = a.urn := by
  unfold markIncompleteIfDependent
  split <;> rfl

theorem clearIfTarget_inProcess (urn : String) (a : Agg) :
    (clearIfTarget urn a).inProcess = a.inProcess := by
  unfold clearIfTarget clearAggState
  split <;> rfl

theorem markIncompleteIfDependent_inProcess (deps : List String) (a : Agg) :
    (markIncompleteIfDependent deps a).inProcess = a.inProcess := by
  unfold markIncompleteIfDependent
  split <;> rfl

theorem clearIfTarget_isDependencyFor (urn : String) (a : Agg) :
    (clearIfTarget urn a).isDependencyFor = a.isDependencyFor := by
  unfold clearIfTarget clearAggState
  split <;> rfl

theorem clearIfTarget_url (urn : String) (a : Agg) :
    (clearIfTarget urn a).url = a.url := by
  unfold clearIfTarget clearAggState
  split <;> rfl

theorem findAgg_urn (w : World) (urn : String) : (findAgg w urn).urn = urn := by
  unfold findAgg
  cases h : w.find? (fun a : Agg => a.urn == urn) with
  | none => rfl
  | some a =>
    have hp := List.find?_some h
    simp only [Option.getD_some]
    exact eq_of_beq hp

theorem findAgg_map_clearIfTarget (w : World) (urn : String) :
    findAgg (w.map (clearIfTarget urn)) urn = clearIfTarget urn (findAgg w urn) := by
  unfold findAgg
  rw [List.find?_map]
  have hp : ((fun a : Agg => a.urn == urn) ∘ clearIfTarget urn)
      = (fun a : Agg => a.urn == urn) := by
    funext a
    simp [Function.comp, clearIfTarget_urn]
  rw [hp]
  cases h : w.find? (fun a : Agg => a.urn == urn) with
  | none =>
    show ({ urn := urn } : Agg) = clearIfTarget urn { urn := urn }
    simp [clearIfTarget, clearAggState]
  | some a => simp

theorem contains_eq_true_iff_mem (l : List String) (s : String) :
    l.contains s = true ↔ s ∈ l := by
  simp [List.contains_iff_exists_mem_beq, beq_iff_eq]

/-! ## Claims about deleteReservation -/

/-- C8: `deleteReservation` leaves the `inProcess` flag of every aggregate
(in particular its own) unchanged, whatever the prior state and RPC
outcome: it writes `completed`, `manifestDom` and the owned hops' manifest
fields, but never `inProcess`. -/
theorem deleteReservation_preserves_inProcess (w : World) (urn : String)
    (inp : DelInput) :
    (deleteReservation w urn inp).1.map Agg.inProcess = w.map Agg.inProcess := by
  show (deleteReservationWorld w urn).map Agg.inProcess = w.map Agg.inProcess
  unfold deleteReservationWorld
  rw [List.map_map, List.map_map]
  apply List.map_congr_left
  intro a _
  simp only [Function.comp_apply]
  rw [markIncompleteIfDependent_inProcess, clearIfTarget_inProcess]

/-- C2 (amended): `deleteReservation` marks `completed=false` exactly on the
target aggregate and on the direct members of its `isDependencyFor`; every
other aggregate — in particular aggregates reachable only transitively
through `isDependencyFor` — keeps its `completed` flag. -/
theorem deleteReservation_completed_flags (w : World) (urn : String)
    (inp : DelInput) :
    (deleteReservation w urn inp).1.map Agg.completed =
      w.map (fun a =>
        if a.urn = urn ∨ a.urn ∈ (findAgg w urn).isDependencyFor then false
        else a.completed) := by
  show (deleteReservationWorld w urn).map Agg.completed = _
  have hDR : deleteReservationWorld w urn
      = (w.map (clearIfTarget urn)).map
          (markIncompleteIfDependent
            (findAgg (w.map (clearIfTarget urn)) urn).isDependencyFor) := rfl
  rw [hDR, findAgg_map_clearIfTarget, List.map_map, List.map_map]
  apply List.map_congr_left
  intro a _
  simp only [Function.comp_apply, clearIfTarget_isDependencyFor]
  by_cases h1 : a.urn = urn
  · by_cases h2 : a.urn ∈ (findAgg w urn).isDependencyFor <;>
      simp [markIncompleteIfDependent, clearIfTarget, clearAggState, h1, h2,
        contains_eq_true_iff_mem]
  · by_cases h2 : a.urn ∈ (findAgg w urn).isDependencyFor <;>
      simp [markIncompleteIfDependent, clearIfTarget, clearAggState, h1, h2,
        contains_eq_true_iff_mem]

/-- Transitive reachability along `isDependencyFor` (the spec's ripple-down
closure). -/
inductive InDependencyClosure (w : World) : String → String → Prop where
  | direct (x y : String) : y ∈ (findAgg w x).isDependencyFor →
      InDependencyClosure w x y
  | step (x y z : String) : InDependencyClosure w x y →
      z ∈ (findAgg w y).isDependencyFor → InDependencyClosure w x z

def c2AggA : Agg :=
  { urn := "urn:am-A", completed := true, isDependencyFor := ["urn:am-B"] }

def c2AggB : Agg :=
  { urn := "urn:am-B", completed := true, isDependencyFor := ["urn:am-C"] }

def c2AggC : Agg := { urn := "urn:am-C", completed := true }

def c2World : World := [c2AggA, c2AggB, c2AggC]

def c2Del : DelInput := { fakeMode := true, outcome := DelOutcome.ok "" [] }

/-- C2 counterexample: with A → B → C along `isDependencyFor` (all
completed), `deleteReservation(A)` clears B but leaves C — an aggregate in
A's transitive `isDependencyFor` closure — with `completed = true`, so the
claim that the transitive closure is marked incomplete is false. -/
theorem c2_counterexample :
    InDependencyClosure c2World "urn:am-A" "urn:am-C" ∧
    (findAgg (deleteReservation c2World "urn:am-A" c2Del).1 "urn:am-C").completed
      = true ∧
    (findAgg (deleteReservation c2World "urn:am-A" c2Del).1 "urn:am-B").completed
      = false :=
  ⟨InDependencyClosure.step _ "urn:am-B" _
      (InDependencyClosure.direct _ _ (by decide)) (by decide),
    by decide, by decide⟩

/-- The delete RPC outcome that makes `deleteReservation` raise: an
`OmniError` from omni, or a success list missing our url
(objects.py:712-719). -/
def delOutcomeFails (url : String) : DelOutcome → Bool
  | DelOutcome.omniError => true
  | DelOutcome.ok _ successList => ! successList.contains url

theorem markIncompleteIfDependent_manifestDom (deps : List String) (a : Agg) :
    (markIncompleteIfDependent deps a).manifestDom = a.manifestDom := by
  unfold markIncompleteIfDependent
  split <;> rfl

theorem markIncompleteIfDependent_hops (deps : List String) (a : Agg) :
    (markIncompleteIfDependent deps a).hops = a.hops := by
  unfold markIncompleteIfDependent
  split <;> rfl

theorem markIncompleteIfDependent_completed_false (deps : List String) (a : Agg)
    (h : a.completed = false) :
    (markIncompleteIfDependent deps a).completed = false := by
  unfold markIncompleteIfDependent
  split <;> simp [h]

/-- C10: `deleteReservation` mutates local state before issuing the delete
RPC; when the RPC fails (omni raises, or our url is missing from the
success list) a `StitchingError` is raised and the already-made local
changes stand: the target's `manifestDom` is `None`, its `completed` is
false and every owned hop's manifest fields are cleared. -/
theorem deleteReservation_failure_keeps_cleared_state (w : World) (urn : String)
    (inp : DelInput) (hfake : inp.fakeMode = false)
    (hfail : delOutcomeFails (findAgg w urn).url inp.outcome = true) :
    ((deleteReservation w urn inp).2.2).isSome = true ∧
    ∀ a ∈ (deleteReservation w urn inp).1, a.urn = urn →
      a.manifestDom = none ∧ a.completed = false ∧
      ∀ h ∈ a.hops, h.hop_link.vlan_suggested_manifest = none ∧
        h.hop_link.vlan_range_manifest = none := by
  constructor
  · show (deleteRPC (findAgg (w.map (clearIfTarget urn)) urn) inp).2.isSome = true
    rw [findAgg_map_clearIfTarget]
    unfold deleteRPC
    rw [hfake]
    cases ho : inp.outcome with
    | omniError => simp
    | ok t successList =>
      rw [ho] at hfail
      unfold delOutcomeFails at hfail
      rw [clearIfTarget_url]
      simp only [Bool.not_eq_true'] at hfail
      have hmem : (findAgg w urn).url ∉ successList := by
        intro hm
        rw [← contains_eq_true_iff_mem] at hm
        rw [hfail] at hm
        exact Bool.false_ne_true hm
      simp [hmem]
  · intro a ha hurn
    have ha' : a ∈ (deleteReservationWorld w urn) := ha
    unfold deleteReservationWorld at ha'
    rw [List.map_map] at ha'
    obtain ⟨b, _, rfl⟩ := List.mem_map.1 ha'
    simp only [Function.comp_apply] at hurn ⊢
    have hb : (clearIfTarget urn b).urn = urn := by
      rw [← markIncompleteIfDependent_urn
        (findAgg (w.map (clearIfTarget urn)) urn).isDependencyFor (clearIfTarget urn b)]
      exact hurn
    rw [clearIfTarget_urn] at hb
    have hclear : clearIfTarget urn b = clearAggState b := by
      unfold clearIfTarget
      rw [if_pos]
      exact beq_iff_eq.mpr hb
    rw [markIncompleteIfDependent_manifestDom, markIncompleteIfDependent_hops,
      hclear]
    refine ⟨rfl, ?_, ?_⟩
    · exact markIncompleteIfDependent_completed_false _ _ rfl
    · intro h hh
      have hh' : h ∈ b.hops.map clearHopManifests := hh
      obtain ⟨h0, _, rfl⟩ := List.mem_map.1 hh'
      exact ⟨rfl, rfl⟩

def c10Agg : Agg :=
  { urn := "urn:am-D", url := "http://am-d.example.org", completed := true,
    manifestDom := some [],
    hops := [{ id := "hd",
               hop_link := { urn := "urn:link-d",
                             vlan_suggested_manifest := some {7},
                             vlan_range_manifest := some {7} } }] }

def c10World : World := [c10Agg]

def c10Del : DelInput := { fakeMode := false, outcome := DelOutcome.omniError }

/-- Witness for C10 at a concrete completed aggregate whose delete RPC
raises `OmniError`. -/
theorem c10_witness :
    ((deleteReservation c10World "urn:am-D" c10Del).2.2).isSome = true ∧
    ∀ a ∈ (deleteReservation c10World "urn:am-D" c10Del).1, a.urn = "urn:am-D" →
      a.manifestDom = none ∧ a.completed = false ∧
      ∀ h ∈ a.hops, h.hop_link.vlan_suggested_manifest = none ∧
        h.hop_link.vlan_range_manifest = none :=
  deleteReservation_failure_keeps_cleared_state c10World "urn:am-D" c10Del rfl
    (by decide)

/-! ## Claims about VLAN negotiation -/

/-- C4: for an importing hop H with upstream link U, the negotiation
computes `new_suggested` as U's `vlan_suggested_manifest` when present
(truthy), otherwise H's current `vlan_suggested_request`, defaulting to the
full "any" range; and `new_avail` as
(U.`vlan_range_manifest` ∩ H.`vlan_range_request`) − H.`vlans_unavailable`. -/
theorem negotiation_new_values (h : Hop) (up : HopLink) :
    (∀ m, up.vlan_suggested_manifest = some m → m ≠ ∅ →
      newSuggested h up = m) ∧
    (∀ s, pyTruthy up.vlan_suggested_manifest = false →
      h.hop_link.vlan_suggested_request = some s → s ≠ ∅ →
      newSuggested h up = s) ∧
    (pyTruthy up.vlan_suggested_manifest = false →
      pyTruthy h.hop_link.vlan_suggested_request = false →
      newSuggested h up = VLANRange.anyRange) ∧
    (∀ rm rq, up.vlan_range_manifest = some rm → rm ≠ ∅ →
      h.hop_link.vlan_range_request = some rq → rq ≠ ∅ →
      newAvail h up = (rm ∩ rq) \ h.vlans_unavailable) := by
  refine ⟨?_, ?_, ?_, ?_⟩
  · intro m hm hne
    unfold newSuggested
    rw [hm]
    simp [pyTruthy, hne]
  · intro s hfalse hs hne
    unfold newSuggested
    rw [hfalse, hs]
    simp [pyTruthy, hne]
  · intro hfalse1 hfalse2
    unfold newSuggested
    rw [hfalse1, hfalse2]
    simp
  · intro rm rq hrm hrmne hrq hrqne
    unfold newAvail
    rw [hrm, hrq]
    simp [pyTruthy, hrmne, hrqne]

def c4Link : HopLink :=
  { urn := "urn:link4"
    vlan_range_request := some {100, 101, 102}
    vlan_suggested_request := some {100} }

def c4Hop : Hop :=
  { id := "h4"
    hop_link := c4Link
    import_vlans := true
    vlans_unavailable := {101} }

def c4Up : HopLink :=
  { urn := "urn:uplink4"
    vlan_suggested_manifest := some {102}
    vlan_range_manifest := some {100, 102} }

/-- Witness for C4 at a concrete importing hop. -/
theorem negotiation_new_values_witness :
    newSuggested c4Hop c4Up = {102} ∧
    newAvail c4Hop c4Up = (({100, 102} : VLANRange) ∩ {100, 101, 102}) \ {101} :=
  ⟨(negotiation_new_values c4Hop c4Up).1 {102} (by decide) (by decide),
   (negotiation_new_values c4Hop c4Up).2.2.2 {100, 102} {100, 101, 102}
     (by decide) (by decide) (by decide) (by decide)⟩

/-- C5: for every importing hop, the negotiation step raises exactly when
the computed `new_suggested` is contained in the hop's known-unavailable
VLANs, or the computed `new_avail` is empty, or `new_suggested` is not
contained in `new_avail`; every such error reports the hop's identity. -/
theorem negotiateVLANs_raises_iff (h : Hop) (up : HopLink) :
    (negotiationFailed (negotiateVLANs h up) = true ↔
      newSuggested h up ⊆ h.vlans_unavailable ∨ newAvail h up = ∅ ∨
      ¬ newSuggested h up ⊆ newAvail h up) ∧
    ∀ e, negotiateVLANs h up = Except.error e →
      e.mentionsHop = some h.id := by
  constructor
  · show negotiationFailed
        (if newSuggested h up ⊆ h.vlans_unavailable then
          Except.error (StitchErr.suggestedUnavailable h.id)
        else if newAvail h up = ∅ then Except.error (StitchErr.emptyAvail h.id)
        else if ¬ newSuggested h up ⊆ newAvail h up then
          Except.error (StitchErr.suggestedNotInAvail h.id)
        else Except.ok (newSuggested h up, newAvail h up)) = true ↔ _
    split_ifs with h1 h2 h3 <;> simp [negotiationFailed] <;> tauto
  · intro e he
    have he' :
        (if newSuggested h up ⊆ h.vlans_unavailable then
          Except.error (StitchErr.suggestedUnavailable h.id)
        else if newAvail h up = ∅ then Except.error (StitchErr.emptyAvail h.id)
        else if ¬ newSuggested h up ⊆ newAvail h up then
          Except.error (StitchErr.suggestedNotInAvail h.id)
        else Except.ok (newSuggested h up, newAvail h up)) = Except.error e := he
    clear he
    split_ifs at he' with h1 h2 h3
    · simp only [Except.error.injEq] at he'
      rw [← he']
      rfl
    · simp only [Except.error.injEq] at he'
      rw [← he']
      rfl
    · simp only [Except.error.injEq] at he'
      rw [← he']
      rfl

def c5Hop : Hop :=
  { id := "h5"
    hop_link := { urn := "urn:link5" }
    import_vlans := true
    vlans_unavailable := {5} }

def c5Up : HopLink :=
  { urn := "urn:uplink5"
    vlan_suggested_manifest := some {5}
    vlan_range_manifest := some {5, 6} }

/-- Witness for C5: a hop whose computed suggested VLAN lies inside its
unavailable set fails, and the error names the hop. -/
theorem negotiateVLANs_raises_iff_witness :
    negotiationFailed (negotiateVLANs c5Hop c5Up) = true ∧
    StitchErr.mentionsHop (StitchErr.suggestedUnavailable "h5") = some "h5" :=
  ⟨(negotiateVLANs_raises_iff c5Hop c5Up).1.mpr (Or.inl (by decide)),
   (negotiateVLANs_raises_iff c5Hop c5Up).2
     (StitchErr.suggestedUnavailable "h5") (by rfl)⟩

/-! ## Claim about the RPC operation names (C6) -/

def c6Agg2 : Agg :=
  { urn := "urn:am-v2", url := "http://am-v2.example.org", api_version := 2 }

def c6Agg3 : Agg :=
  { urn := "urn:am-v3", url := "http://am-v3.example.org", api_version := 3 }

def c6Del : DelInput :=
  { fakeMode := false,
    outcome := DelOutcome.ok "ok"
      ["http://am-v2.example.org", "http://am-v3.example.org"] }

def c6Res : AllocInput :=
  { fakeMode := false, outcome := RpcOutcome.okEmpty,
    delOutcome := DelOutcome.omniError }

/-- C6: the reserve RPC does use `createsliver` (v2) / `allocate` (v3+),
and the internal `opName` of the delete path is `deletesliver` / `delete`;
but the operation actually passed to omni for the delete is
`opName + 'sliver'` (objects.py:708), i.e. `deletesliversliver` for v2 and
`deletesliver` for v3+ — not the claimed `deletesliver` / `delete`. -/
theorem rpc_operation_names :
    reserveOpName 2 = "createsliver" ∧ reserveOpName 3 = "allocate" ∧
    deleteOpName 2 = "deletesliver" ∧ deleteOpName 3 = "delete" ∧
    (doReservation c6Agg2 c6Res).2.1
      = [RpcCall.reserve "http://am-v2.example.org" "createsliver"] ∧
    (doReservation c6Agg3 c6Res).2.1
      = [RpcCall.reserve "http://am-v3.example.org" "allocate"] ∧
    (deleteReservation [c6Agg2] "urn:am-v2" c6Del).2.1
      = [RpcCall.delete "http://am-v2.example.org" "deletesliversliver"] ∧
    (deleteReservation [c6Agg3] "urn:am-v3" c6Del).2.1
      = [RpcCall.delete "http://am-v3.example.org" "deletesliver"] ∧
    deleteOmniArgs c6Agg2 "myslice"
      = ["-a", "http://am-v2.example.org", "deletesliversliver", "myslice"] := by
  decide

/-! ## Claim about the allocate guards (C7) -/

/-- C7: calling `allocate` on an aggregate whose `inProcess` or `completed`
flag is already true is a no-op: the world is unchanged, no RPC is issued
and nothing is raised. -/
theorem allocate_noop_when_inProcess_or_completed (w : World) (urn : String)
    (inp : AllocInput) (a : Agg)
    (hfind : w.find? (fun x => x.urn == urn) = some a)
    (hguard : a.inProcess = true ∨ a.completed = true) :
    allocate w urn inp = { world := w, calls := [], err := none } := by
  unfold allocate
  rw [hfind]
  rcases hguard with hg | hg
  · simp [hg]
  · by_cases hip : a.inProcess = true
    · simp [hip]
    · by_cases hdeps : dependenciesComplete w a = true
      · simp [hip, hdeps, hg]
      · simp [hip, hdeps]

def c7Agg : Agg := { urn := "urn:am-E", completed := true }

def c7World : World := [c7Agg]

def c7Inp : AllocInput :=
  { fakeMode := false, outcome := RpcOutcome.exn,
    delOutcome := DelOutcome.omniError }

/-- Witness for C7 at a concrete already-completed aggregate. -/
theorem allocate_noop_witness :
    allocate c7World "urn:am-E" c7Inp
      = { world := c7World, calls := [], err := none } :=
  allocate_noop_when_inProcess_or_completed c7World "urn:am-E" c7Inp c7Agg
    (by decide) (Or.inr rfl)

/-! ## Claims about allocate's manifest handling (C1, C3) -/

/-- The invariant claimed for completed aggregates, stated from the spec's
words (§3): if `completed` is true then every owned hop's
`vlan_suggested_manifest` is non-null and is a singleton VLAN contained in
`vlan_range_manifest`. -/
def completedManifestInvariant (a : Agg) : Prop :=
  a.completed = true →
    ∀ h ∈ a.hops,
      h.hop_link.vlan_suggested_manifest.isSome = true ∧
      (h.hop_link.vlan_suggested_manifest.getD ∅).card = 1 ∧
      h.hop_link.vlan_suggested_manifest.getD ∅ ⊆
        h.hop_link.vlan_range_manifest.getD ∅

instance (a : Agg) : Decidable (completedManifestInvariant a) := by
  unfold completedManifestInvariant
  infer_instance

def c1Link : HopLink :=
  { urn := "urn:link-a"
    vlan_range_request := some {100, 101}
    vlan_suggested_request := some {100} }

def c1Hop : Hop := { id := "h1", hop_link := c1Link }

def c1Agg : Agg :=
  { urn := "urn:am-A1"
    url := "http://am-a1.example.org"
    hops := [c1Hop] }

def c1World : World := [c1Agg]

/-- A manifest whose suggested VLAN for hop h1 is the two-element range
100-101 (not a singleton) and whose avail range does not contain it. -/
def c1Manifest : ManifestDoc :=
  [("h1", { rangeValue := some {90}, suggestedValue := SuggVal.vlanVal {100, 101} })]

def c1Inp : AllocInput :=
  { fakeMode := false, outcome := RpcOutcome.ok c1Manifest,
    delOutcome := DelOutcome.omniError }

/-- C1 counterexample: `allocate` accepts a manifest whose suggested VLAN is
the two-element range 100-101 (with an avail range not containing it),
stores it and returns normally with `completed=true` — so the claimed
invariant (non-null singleton contained in `vlan_range_manifest`) is false
at this input. -/
theorem c1_counterexample :
    (allocate c1World "urn:am-A1" c1Inp).err = none ∧
    decide (completedManifestInvariant
        (findAgg (allocate c1World "urn:am-A1" c1Inp).world "urn:am-A1"))
      = false := by
  decide

def c3Link : HopLink :=
  { urn := "urn:link-f"
    vlan_range_request := some {100, 200}
    vlan_suggested_request := some {100} }

def c3Hop : Hop := { id := "hf", hop_link := c3Link }

def c3Agg : Agg :=
  { urn := "urn:am-F"
    url := "http://am-f.example.org"
    hops := [c3Hop] }

def c3World : World := [c3Agg]

/-- A manifest whose suggested VLAN 200 is not contained in the hop's
`vlan_suggested_request` {100}. -/
def c3Manifest : ManifestDoc :=
  [("hf", { rangeValue := some {100, 200}, suggestedValue := SuggVal.vlanVal {200} })]

def c3Inp : AllocInput :=
  { fakeMode := false, outcome := RpcOutcome.ok c3Manifest,
    delOutcome := DelOutcome.omniError }

/-- C3: evaluation at the failing input.  The manifest returns suggested
VLAN {200} although the request asked for {100}; `allocate` merely logs the
mismatch (objects.py:324-327, `FIXME: Handle error here`), stores the
manifest values and completes normally — it does not fail with
`VLANMismatch` as the claim requires. -/
theorem c3_mismatch_completes_normally :
    (allocate c3World "urn:am-F" c3Inp).err = none ∧
    (findAgg (allocate c3World "urn:am-F" c3Inp).world "urn:am-F").completed
      = true ∧
    (findAgg (allocate c3World "urn:am-F" c3Inp).world "urn:am-F").hops.all
      (fun h => h.hop_link.vlan_suggested_manifest == some {200} &&
        h.hop_link.vlan_suggested_request == some {100}) = true ∧
    decide (({200} : VLANRange) ⊆ ({100} : VLANRange)) = false := by
  decide

/-! ## The successful-reservation path of allocate (C1, amended) -/

/-- Does a call list contain a reserve RPC? -/
def containsReserve : List RpcCall → Bool
  | [] => false
  | RpcCall.reserve _ _ :: _ => true
  | RpcCall.delete _ _ :: t => containsReserve t

theorem containsReserve_append (l1 l2 : List RpcCall) :
    containsReserve (l1 ++ l2) = (containsReserve l1 || containsReserve l2) := by
  induction l1 with
  | nil => simp [containsReserve]
  | cons c t ih =>
    cases c with
    | reserve u o => simp [containsReserve]
    | delete u o => simp [containsReserve, ih]

theorem deleteRPC_no_reserve (tgt : Agg) (inp : DelInput) :
    containsReserve (deleteRPC tgt inp).1 = false := by
  unfold deleteRPC
  split
  · rfl
  · split
    · rfl
    · split <;> rfl

theorem processManifestHop_none_sets (m : ManifestDoc) (h h' : Hop)
    (he : processManifestHop m h = (h', none)) :
    h'.hop_link.vlan_suggested_manifest.isSome = true ∧
    h'.hop_link.vlan_range_manifest.isSome = true := by
  unfold processManifestHop at he
  cases hm : m.lookup h.id with
  | none => rw [hm] at he; simp at he
  | some entry =>
    rw [hm] at he
    dsimp only at he
    cases hs : entry.suggestedValue with
    | missing => rw [hs] at he; simp at he
    | special => rw [hs] at he; simp at he
    | vlanVal s =>
      rw [hs] at he
      cases hr : entry.rangeValue with
      | none => rw [hr] at he; simp at he
      | some r =>
        rw [hr] at he
        simp only [Prod.mk.injEq] at he
        obtain ⟨hh, -⟩ := he
        rw [← hh]
        exact ⟨rfl, rfl⟩

theorem manifestLoop_none_sets (m : ManifestDoc) :
    ∀ (hops hops' : List Hop), manifestLoop m hops = (hops', none) →
    ∀ h ∈ hops', h.hop_link.vlan_suggested_manifest.isSome = true ∧
      h.hop_link.vlan_range_manifest.isSome = true := by
  intro hops
  induction hops with
  | nil =>
    intro hops' he
    unfold manifestLoop at he
    simp only [Prod.mk.injEq] at he
    obtain ⟨hh, -⟩ := he
    rw [← hh]
    intro x hx
    exact absurd hx (List.not_mem_nil x)
  | cons hd tl ih =>
    intro hops' he
    unfold manifestLoop at he
    rcases hph : processManifestHop m hd with ⟨h1, e1⟩
    rw [hph] at he
    cases e1 with
    | some err => simp at he
    | none =>
      rcases hml : manifestLoop m tl with ⟨rest, e2⟩
      rw [hml] at he
      simp only [Prod.mk.injEq] at he
      obtain ⟨hh, he2⟩ := he
      rw [← hh]
      intro x hx
      rcases List.mem_cons.mp hx with rfl | hxm
      · exact processManifestHop_none_sets m hd x hph
      · exact ih rest (by rw [hml, he2]) x hxm

theorem doReservation_urn (a : Agg) (inp : AllocInput) :
    (doReservation a inp).1.urn = a.urn := by
  rcases inp with ⟨fm, oc, dout⟩
  cases oc <;> rfl

theorem manifestPhase_err_none (w : World) (calls : List RpcCall) (a3 : Agg)
    (herr : (manifestPhase w calls a3).err = none) :
    ∃ afin, (manifestPhase w calls a3).world = updateAgg w afin ∧
      afin.urn = a3.urn ∧ afin.completed = true ∧
      ∀ h ∈ afin.hops, h.hop_link.vlan_suggested_manifest.isSome = true ∧
        h.hop_link.vlan_range_manifest.isSome = true := by
  unfold manifestPhase at herr ⊢
  cases hm : a3.manifestDom with
  | none =>
    rw [hm] at herr
    simp at herr
  | some m =>
    rw [hm] at herr
    dsimp only at herr ⊢
    rcases hml : manifestLoop m a3.hops with ⟨hops2, lerr⟩
    rw [hml] at herr
    cases lerr with
    | some e => simp at herr
    | none =>
      refine ⟨{ a3 with
          manifestDom := some m
          hops := hops2
          inProcess := false
          completed := true }, rfl, rfl, rfl, ?_⟩
      intro h hh
      exact manifestLoop_none_sets m a3.hops hops2 hml h hh

theorem allocateFinish_err_none (w : World) (calls : List RpcCall) (a2 : Agg)
    (res : Option (Bool × ResultVal))
    (herr : (allocateFinish w calls a2 res).err = none) :
    ∃ afin, (allocateFinish w calls a2 res).world = updateAgg w afin ∧
      afin.urn = a2.urn ∧ afin.completed = true ∧
      ∀ h ∈ afin.hops, h.hop_link.vlan_suggested_manifest.isSome = true ∧
        h.hop_link.vlan_range_manifest.isSome = true := by
  cases res with
  | none => exact Option.noConfusion herr
  | some p =>
    rcases p with ⟨success, result⟩
    cases success with
    | false => exact Option.noConfusion herr
    | true =>
      cases result with
      | doc m =>
        obtain ⟨afin, h1, h2, h3, h4⟩ := manifestPhase_err_none w calls
          { a2 with manifestDom := some m } herr
        exact ⟨afin, h1, h2, h3, h4⟩
      | unparseable =>
        obtain ⟨afin, h1, h2, h3, h4⟩ := manifestPhase_err_none w calls a2 herr
        exact ⟨afin, h1, h2, h3, h4⟩
      | errStruct =>
        obtain ⟨afin, h1, h2, h3, h4⟩ := manifestPhase_err_none w calls a2 herr
        exact ⟨afin, h1, h2, h3, h4⟩
      | nothing => exact Option.noConfusion herr

theorem allocateReserve_err_none (w : World) (a : Agg) (inp : AllocInput)
    (calls0 : List RpcCall)
    (herr : (allocateReserve w a inp calls0).err = none) :
    ∃ afin, (allocateReserve w a inp calls0).world = updateAgg w afin ∧
      afin.urn = a.urn ∧ afin.completed = true ∧
      ∀ h ∈ afin.hops, h.hop_link.vlan_suggested_manifest.isSome = true ∧
        h.hop_link.vlan_range_manifest.isSome = true := by
  obtain ⟨afin, h1, h2, h3, h4⟩ := allocateFinish_err_none _ _ _ _ herr
  refine ⟨afin, h1, ?_, h3, h4⟩
  rw [h2, doReservation_urn]

theorem exists_urn_of_find? (w : World) (urn : String) (a : Agg)
    (h : w.find? (fun x => x.urn == urn) = some a) : ∃ x ∈ w, x.urn = urn := by
  have hp := List.find?_some (p := fun x : Agg => x.urn == urn) (a := a) h
  exact ⟨a, List.mem_of_find?_eq_some h, eq_of_beq hp⟩

theorem exists_urn_map (w : World) (f : Agg → Agg) (hf : ∀ x, (f x).urn = x.urn)
    (u : String) (hex : ∃ x ∈ w, x.urn = u) : ∃ x ∈ w.map f, x.urn = u := by
  obtain ⟨x, hx, hxu⟩ := hex
  exact ⟨f x, List.mem_map_of_mem f hx, by rw [hf, hxu]⟩

theorem exists_urn_updateAgg (w : World) (a : Agg) (u : String) (hu : a.urn = u)
    (hex : ∃ x ∈ w, x.urn = u) : ∃ x ∈ updateAgg w a, x.urn = u := by
  obtain ⟨x, hx, hxu⟩ := hex
  refine ⟨if x.urn == a.urn then a else x, List.mem_map_of_mem _ hx, ?_⟩
  split
  · exact hu
  · exact hxu

theorem exists_urn_deleteReservationWorld (w : World) (urn u : String)
    (hex : ∃ x ∈ w, x.urn = u) :
    ∃ x ∈ deleteReservationWorld w urn, x.urn = u :=
  exists_urn_map _ _ (fun x => markIncompleteIfDependent_urn _ x) u
    (exists_urn_map _ _ (fun x => clearIfTarget_urn urn x) u hex)

theorem findAgg_cons (y : Agg) (t : World) (u : String) :
    findAgg (y :: t) u = if y.urn == u then y else findAgg t u := by
  unfold findAgg
  by_cases hy : (y.urn == u) = true
  · rw [List.find?_cons_of_pos (p := fun a : Agg => a.urn == u) t hy, if_pos hy]
    rfl
  · rw [List.find?_cons_of_neg (p := fun a : Agg => a.urn == u) t hy, if_neg hy]

theorem findAgg_updateAgg (w : World) (a : Agg)
    (hex : ∃ x ∈ w, x.urn = a.urn) :
    findAgg (updateAgg w a) a.urn = a := by
  induction w with
  | nil =>
    obtain ⟨x, hx, -⟩ := hex
    exact absurd hx (List.not_mem_nil x)
  | cons y t ih =>
    obtain ⟨x, hx, hxu⟩ := hex
    rw [show updateAgg (y :: t) a
        = (if y.urn == a.urn then a else y) :: updateAgg t a from rfl,
      findAgg_cons]
    by_cases hy : (y.urn == a.urn) = true
    · rw [if_pos hy]
      simp
    · rw [if_neg hy, if_neg]
      · apply ih
        rcases List.mem_cons.mp hx with rfl | hxm
        · exact absurd (beq_iff_eq.mpr hxu) hy
        · exact ⟨x, hxm, hxu⟩
      · exact hy

/-- C1 (amended): whenever `allocate` returns without raising on a run that
actually issued a reserve RPC, it has set `completed = true` and every
owned hop carries a non-null `vlan_suggested_manifest` and
`vlan_range_manifest` taken from the manifest.  (The stored suggested
manifest need not be a singleton nor contained in `vlan_range_manifest` —
see the counterexample — and on the path where the RPC reports failure the
source raises `NameError` on the unbound `text` at objects.py:337 instead
of completing.) -/
theorem allocate_reserve_success_completes (w : World) (urn : String)
    (inp : AllocInput)
    (herr : (allocate w urn inp).err = none)
    (hres : containsReserve (allocate w urn inp).calls = true) :
    (findAgg (allocate w urn inp).world urn).completed = true ∧
    ∀ h ∈ (findAgg (allocate w urn inp).world urn).hops,
      h.hop_link.vlan_suggested_manifest.isSome = true ∧
      h.hop_link.vlan_range_manifest.isSome = true := by
  unfold allocate at herr hres ⊢
  cases hf : w.find? (fun x => x.urn == urn) with
  | none =>
    rw [hf] at hres
    simp [containsReserve] at hres
  | some a =>
    rw [hf] at herr hres
    dsimp only at herr hres ⊢
    have hex0 : ∃ x ∈ w, x.urn = urn := exists_urn_of_find? w urn a hf
    have haurn : a.urn = urn := by
      have hp := List.find?_some (p := fun x : Agg => x.urn == urn) (a := a) hf
      exact eq_of_beq hp
    by_cases hip : a.inProcess = true
    · rw [if_pos hip] at hres
      simp [containsReserve] at hres
    · rw [if_neg hip] at herr hres ⊢
      by_cases hdc : dependenciesComplete w a = true
      · rw [if_neg (not_not_intro hdc)] at herr hres ⊢
        by_cases hcm : a.completed = true
        · rw [if_pos hcm] at hres
          simp [containsReserve] at hres
        · rw [if_neg hcm] at herr hres ⊢
          rcases hcv : copyVLANsAndDetectRedo a with ⟨hops1, md, ad, cerr⟩
          rw [hcv] at herr hres
          dsimp only at herr hres ⊢
          cases cerr with
          | some e => simp at herr
          | none =>
            by_cases hmd : md = true
            · rw [if_pos hmd] at herr hres ⊢
              rcases hdel : deleteReservation (updateAgg w { a with hops := hops1 })
                  urn { fakeMode := inp.fakeMode, outcome := inp.delOutcome } with
                ⟨w2, dcalls, derr⟩
              rw [hdel] at herr hres
              dsimp only at herr hres ⊢
              cases derr with
              | some e => simp at herr
              | none =>
                have herr' : (allocateReserve w2 (findAgg w2 urn) inp dcalls).err
                    = none := herr
                have hw2 : deleteReservationWorld
                    (updateAgg w { a with hops := hops1 }) urn = w2 :=
                  congrArg Prod.fst hdel
                have hex2 : ∃ x ∈ w2, x.urn = urn := by
                  rw [← hw2]
                  exact exists_urn_deleteReservationWorld _ urn urn
                    (exists_urn_updateAgg w _ urn haurn hex0)
                obtain ⟨afin, hworld, hurnn, hcomp, hhops⟩ :=
                  allocateReserve_err_none w2 (findAgg w2 urn) inp dcalls herr'
                show (findAgg (allocateReserve w2 (findAgg w2 urn) inp
                    dcalls).world urn).completed = true ∧
                  ∀ h ∈ (findAgg (allocateReserve w2 (findAgg w2 urn) inp
                      dcalls).world urn).hops,
                    h.hop_link.vlan_suggested_manifest.isSome = true ∧
                    h.hop_link.vlan_range_manifest.isSome = true
                rw [hworld]
                have hafin : afin.urn = urn := by rw [hurnn, findAgg_urn]
                have hex3 : ∃ x ∈ w2, x.urn = afin.urn := by
                  rw [hafin]
                  exact hex2
                rw [← hafin, findAgg_updateAgg w2 afin hex3]
                exact ⟨hcomp, hhops⟩
            · rw [if_neg hmd] at herr hres ⊢
              dsimp only at herr hres ⊢
              by_cases had : ad = true
              · rw [if_pos had] at hres
                simp [containsReserve] at hres
              · rw [if_neg had] at herr hres ⊢
                have hex2 : ∃ x ∈ updateAgg w { a with hops := hops1 }, x.urn = urn :=
                  exists_urn_updateAgg w _ urn haurn hex0
                obtain ⟨afin, hworld, hurnn, hcomp, hhops⟩ :=
                  allocateReserve_err_none (updateAgg w { a with hops := hops1 })
                    (findAgg (updateAgg w { a with hops := hops1 }) urn) inp [] herr
                rw [hworld]
                have hafin : afin.urn = urn := by rw [hurnn, findAgg_urn]
                have hex3 : ∃ x ∈ updateAgg w { a with hops := hops1 },
                    x.urn = afin.urn := by
                  rw [hafin]
                  exact hex2
                rw [← hafin, findAgg_updateAgg _ afin hex3]
                exact ⟨hcomp, hhops⟩
      · rw [if_pos hdc] at hres
        simp [containsReserve] at hres

def c1wLink : HopLink :=
  { urn := "urn:link-g"
    vlan_range_request := some {300}
    vlan_suggested_request := some {300} }

def c1wHop : Hop := { id := "hg", hop_link := c1wLink }

def c1wAgg : Agg :=
  { urn := "urn:am-G"
    url := "http://am-g.example.org"
    hops := [c1wHop] }

def c1wWorld : World := [c1wAgg]

def c1wManifest : ManifestDoc :=
  [("hg", { rangeValue := some {300}, suggestedValue := SuggVal.vlanVal {300} })]

def c1wInp : AllocInput :=
  { fakeMode := false, outcome := RpcOutcome.ok c1wManifest,
    delOutcome := DelOutcome.omniError }

/-- Witness for the amended C1 at a concrete successful reservation. -/
theorem allocate_reserve_success_completes_witness :
    (findAgg (allocate c1wWorld "urn:am-G" c1wInp).world "urn:am-G").completed
      = true ∧
    ∀ h ∈ (findAgg (allocate c1wWorld "urn:am-G" c1wInp).world "urn:am-G").hops,
      h.hop_link.vlan_suggested_manifest.isSome = true ∧
      h.hop_link.vlan_range_manifest.isSome = true :=
  allocate_reserve_success_completes c1wWorld "urn:am-G" c1wInp (by decide)
    (by decide)

/-! ## Claims about Path.fromDOM (C9) -/

theorem resolveNext_idx (hops : List Hop) (h : Hop) :
    (resolveNext hops h).idx = h.idx := by
  unfold resolveNext
  dsimp only
  split <;> rfl

theorem assignIdx_length (l : List Hop) : ∀ k, (assignIdx k l).length = l.length := by
  induction l with
  | nil => intro k; rfl
  | cons h t ih =>
    intro k
    show (assignIdx (k + 1) t).length + 1 = t.length + 1
    rw [ih (k + 1)]

theorem assignIdx_getElem? (l : List Hop) :
    ∀ (k i : Nat),
      (assignIdx k l)[i]? = l[i]?.map (fun h => { h with idx := k + i }) := by
  induction l with
  | nil => intro k i; simp [assignIdx]
  | cons h t ih =>
    intro k i
    cases i with
    | zero => simp [assignIdx]
    | succ n =>
      rw [show assignIdx k (h :: t)
          = { h with idx := k } :: assignIdx (k + 1) t from rfl]
      rw [List.getElem?_cons_succ, List.getElem?_cons_succ, ih (k + 1) n]
      have harith : k + 1 + n = k + (n + 1) := by omega
      simp [harith]

theorem find_hop_aux_none_of_no_match (key : Option String) :
    ∀ (l : List Hop) (s : Nat), (∀ x ∈ l, some x.hop_link.urn ≠ key) →
      find_hop_aux l key s = none := by
  intro l
  induction l with
  | nil => intro s _; rfl
  | cons h t ih =>
    intro s hall
    unfold find_hop_aux
    rw [if_neg (hall h (List.mem_cons_self h t))]
    exact ih (s + 1) (fun x hx => hall x (List.mem_cons_of_mem h hx))

theorem find_hop_aux_some_of_first (key : Option String) :
    ∀ (l : List Hop) (j s : Nat) (v : Hop), l[j]? = some v →
      some v.hop_link.urn = key →
      (∀ k x, k < j → l[k]? = some x → some x.hop_link.urn ≠ key) →
      find_hop_aux l key s = some (s + j) := by
  intro l
  induction l with
  | nil => intro j s v hj; simp at hj
  | cons h t ih =>
    intro j s v hj hkey hbefore
    cases j with
    | zero =>
      have hv : h = v := by simpa using hj
      subst hv
      unfold find_hop_aux
      rw [if_pos hkey]
      simp
    | succ n =>
      have hne : some h.hop_link.urn ≠ key :=
        hbefore 0 h (Nat.succ_pos n) (by simp)
      unfold find_hop_aux
      rw [if_neg hne]
      have hrec := ih n (s + 1) v (by simpa using hj) hkey
        (fun k x hk hx => hbefore (k + 1) x (by omega) (by simpa using hx))
      rw [hrec]
      have harith : s + 1 + n = s + (n + 1) := by omega
      rw [harith]

theorem pathHops_getElem? (doms : List HopDom) (i : Nat) :
    (assignIdx 0 (doms.map hopFromDOM))[i]?
      = (doms[i]?).map (fun d => { hopFromDOM d with idx := i }) := by
  rw [assignIdx_getElem?, List.getElem?_map]
  cases doms[i]? <;> simp

theorem pathFromDOM_getElem? (doms : List HopDom) (i : Nat) :
    (pathFromDOM doms)[i]? = (doms[i]?).map (fun d =>
      resolveNext (assignIdx 0 (doms.map hopFromDOM))
        { hopFromDOM d with idx := i }) := by
  show ((assignIdx 0 (doms.map hopFromDOM)).map
      (resolveNext (assignIdx 0 (doms.map hopFromDOM))))[i]? = _
  rw [List.getElem?_map, pathHops_getElem?]
  cases doms[i]? <;> simp

theorem resolveNext_of_raw (hops : List Hop) (h : Hop) (s : String) (j : Nat)
    (hr : h.nextRef = NextRef.raw s)
    (hf : find_hop_aux hops (some s) 0 = some j) :
    (resolveNext hops h).nextRef = NextRef.hop j := by
  unfold resolveNext
  dsimp only
  rw [hr]
  show (match find_hop_aux hops (some s) 0 with
    | some j => { h with nextRef := NextRef.hop j }
    | none => h).nextRef = NextRef.hop j
  rw [hf]

theorem resolveNext_of_null (hops : List Hop) (h : Hop)
    (hr : h.nextRef = NextRef.null)
    (hf : find_hop_aux hops none 0 = none) :
    (resolveNext hops h).nextRef = NextRef.null := by
  unfold resolveNext
  dsimp only
  rw [hr]
  show (match find_hop_aux hops none 0 with
    | some j => { h with nextRef := NextRef.hop j }
    | none => h).nextRef = NextRef.null
  rw [hf]
  exact hr

/-- C9 (amended): `Path.fromDOM` always assigns `hops[i].idx = i`; and when
the document is well-formed — link ids pairwise distinct, each hop's
`nextHop` text naming the next hop's link id (never the literal 'null'),
and the last hop carrying no `nextHop` (or the literal 'null') — every
`next_hop` resolves to the hop at position i+1 (null at the last).  On
other documents a `nextHop` whose text matches no hop urn simply remains
the raw string (see the counterexample), so the claim's unconditional form
is false. -/
theorem pathFromDOM_idx_and_chain (doms : List HopDom) :
    (pathFromDOM doms).length = doms.length ∧
    (∀ (i : Nat) (h : Hop), (pathFromDOM doms)[i]? = some h → h.idx = i) ∧
    ((doms.map (fun d => d.link.id)).Nodup →
      (∀ (i : Nat) (d d' : HopDom), doms[i]? = some d → doms[i + 1]? = some d' →
        d.nextHopText = some d'.link.id ∧ d'.link.id ≠ "null") →
      (∀ d : HopDom, doms[doms.length - 1]? = some d →
        d.nextHopText = none ∨ d.nextHopText = some "null") →
      ∀ (i : Nat) (h : Hop), (pathFromDOM doms)[i]? = some h →
        h.nextRef = if i + 1 < doms.length then NextRef.hop (i + 1)
          else NextRef.null) := by
  refine ⟨?_, ?_, ?_⟩
  · show ((assignIdx 0 (doms.map hopFromDOM)).map
        (resolveNext (assignIdx 0 (doms.map hopFromDOM)))).length = _
    rw [List.length_map, assignIdx_length, List.length_map]
  · intro i h hh
    rw [pathFromDOM_getElem?] at hh
    cases hd : doms[i]? with
    | none => rw [hd] at hh; simp at hh
    | some d =>
      rw [hd] at hh
      have hinj := Option.some.inj hh
      rw [← hinj, resolveNext_idx]
  · intro hnodup hchain hlast i h hh
    have hi : i < doms.length := by
      by_contra hge
      rw [pathFromDOM_getElem?, List.getElem?_eq_none (by omega)] at hh
      simp at hh
    rw [pathFromDOM_getElem?] at hh
    cases hd : doms[i]? with
    | none => rw [hd] at hh; simp at hh
    | some d =>
      rw [hd] at hh
      have hinj := Option.some.inj hh
      have hnr : h.nextRef
          = (resolveNext (assignIdx 0 (doms.map hopFromDOM))
              { hopFromDOM d with idx := i }).nextRef := by rw [← hinj]
      by_cases hlt : i + 1 < doms.length
      · rw [if_pos hlt]
        have hd' : doms[i + 1]? = some doms[i + 1] := List.getElem?_eq_getElem hlt
        obtain ⟨htext, hnn⟩ := hchain i d (doms[i + 1]) hd hd'
        have hraw : ({ hopFromDOM d with idx := i } : Hop).nextRef
            = NextRef.raw (doms[i + 1]).link.id := by
          show parseNextRef d.nextHopText = _
          rw [htext]
          show (if (doms[i + 1]).link.id = "null" then NextRef.null
            else NextRef.raw (doms[i + 1]).link.id) = _
          rw [if_neg hnn]
        have hfind : find_hop_aux (assignIdx 0 (doms.map hopFromDOM))
            (some (doms[i + 1]).link.id) 0 = some (0 + (i + 1)) := by
          apply find_hop_aux_some_of_first _ _ (i + 1) 0
            { hopFromDOM (doms[i + 1]) with idx := i + 1 }
          · rw [pathHops_getElem?, hd']
            rfl
          · rfl
          · intro k x hk hx hcontra
            rw [pathHops_getElem?] at hx
            cases hdk : doms[k]? with
            | none => rw [hdk] at hx; simp at hx
            | some dk =>
              rw [hdk] at hx
              have hxv := Option.some.inj hx
              have hurnk : x.hop_link.urn = dk.link.id := by rw [← hxv]; rfl
              have hids : dk.link.id = (doms[i + 1]).link.id := by
                have := Option.some.inj hcontra
                rw [hurnk] at this
                exact this
              have hne := List.nodup_iff_getElem?_ne_getElem?.mp hnodup k (i + 1)
                hk (by rw [List.length_map]; exact hlt)
              apply hne
              rw [List.getElem?_map, List.getElem?_map, hdk, hd']
              simp [hids]
        rw [hnr]
        have := resolveNext_of_raw (assignIdx 0 (doms.map hopFromDOM))
          { hopFromDOM d with idx := i } (doms[i + 1]).link.id (0 + (i + 1))
          hraw hfind
        rw [this]
        simp
      · rw [if_neg hlt]
        have hieq : i = doms.length - 1 := by omega
        have hnulltext : d.nextHopText = none ∨ d.nextHopText = some "null" := by
          apply hlast
          rw [← hieq]
          exact hd
        have hnull : ({ hopFromDOM d with idx := i } : Hop).nextRef
            = NextRef.null := by
          show parseNextRef d.nextHopText = _
          rcases hnulltext with ht | ht <;> rw [ht] <;> rfl
        have hfnone : find_hop_aux (assignIdx 0 (doms.map hopFromDOM)) none 0
            = none := by
          apply find_hop_aux_none_of_no_match
          intro x _
          simp
        rw [hnr]
        exact resolveNext_of_null _ _ hnull hfnone

def c9Link : LinkDom :=
  { id := "urn:publicid:link-A"
    vlanTranslationText := some "false"
    vlanRangeElem := some (some {100})
    vlanSuggestedElem := some (some {100}) }

/-- A one-hop path document whose `<nextHop>` text ("2", a hop id as the
stitching schema uses) matches no hop's link urn. -/
def c9Dom : HopDom :=
  { id := "1"
    hopType := none
    link := c9Link
    nextHopText := some "2" }

/-- C9 counterexample: after `Path.fromDOM`, the single (hence last) hop's
`next_hop` is neither null nor a resolved hop reference — it remains the
unresolved raw string "2", because `find_hop` compares the `nextHop` text
against hop urns and finds no match.  The claim that `next_hop` is the hop
at i+1 or null, and never an unresolved raw string, is false here. -/
theorem c9_counterexample :
    (pathFromDOM [c9Dom]).map (fun h => h.nextRef) = [NextRef.raw "2"] ∧
    decide (NextRef.raw "2" = NextRef.null) = false := by
  decide

def c9ChainDoms : List HopDom :=
  [{ id := "1", hopType := none,
     link := { id := "urn:link-A", vlanTranslationText := some "false",
               vlanRangeElem := some (some {100}),
               vlanSuggestedElem := some (some {100}) },
     nextHopText := some "urn:link-B" },
   { id := "2", hopType := none,
     link := { id := "urn:link-B", vlanTranslationText := some "false",
               vlanRangeElem := some (some {100}),
               vlanSuggestedElem := some (some {100}) },
     nextHopText := none }]

/-- Witness for the amended C9 on a concrete well-formed two-hop path. -/
theorem pathFromDOM_idx_and_chain_witness :
    (∀ (i : Nat) (h : Hop), (pathFromDOM c9ChainDoms)[i]? = some h →
      h.idx = i) ∧
    ∀ (i : Nat) (h : Hop), (pathFromDOM c9ChainDoms)[i]? = some h →
      h.nextRef = if i + 1 < c9ChainDoms.length then NextRef.hop (i + 1)
        else NextRef.null :=
  ⟨(pathFromDOM_idx_and_chain c9ChainDoms).2.1,
   (pathFromDOM_idx_and_chain c9ChainDoms).2.2 (by decide)
     (fun i d d' hd hd' => by
       cases i with
       | zero =>
         have h1 := Option.some.inj hd
         have h2 := Option.some.inj hd'
         subst h1
         subst h2
         exact ⟨by decide, by decide⟩
       | succ n =>
         exfalso
         have hlen : (n + 1) + 1 < c9ChainDoms.length := by
           by_contra hge
           rw [List.getElem?_eq_none (by omega)] at hd'
           exact Option.noConfusion hd'
         simp only [c9ChainDoms, List.length_cons, List.length_nil] at hlen
         omega)
     (fun d hd => by
       have h1 := Option.some.inj hd
       subst h1
       exact Or.inl (by decide))⟩
